import Mathlib

/-!
# Verification of the CIR path generator (Andersen QE scheme)

This file embeds `generate_cir` from `pfhedge/stochastic/cir.py` as Lean
definitions over the real numbers and proves properties of it:

* `cirStep` is the body of the simulation loop for one path and one step
  (the elementwise arithmetic of the vectorized torch code);
* `cirGrid` is the output grid produced by iterating the loop, indexed by
  path and step, with the two random draw arrays passed in as functions;
* `generate_cir` is the public entry point, modelling the `init_state`
  normalization, tensor broadcasting against the path dimension, and the
  error behaviour of the torch runtime as an `Except` value.

Tensors appearing as parameters are modelled as lists of reals (a scalar is
a one-element list); a tensor of length 1 broadcasts to any number of paths,
a tensor of length `n_paths` is used per path, and any other length raises a
shape error exactly when the corresponding torch expression is executed.
-/

noncomputable section

open Real

/-- `PSI_CRIT` from the source: the regime-switch threshold, fixed at 1.5. -/
def PSI_CRIT : ℝ := 1.5

/-- `EPSILON` from the source: the guard added to denominators, fixed at 1e-8. -/
def EPSILON : ℝ := 1e-8

/-- `exp = (-kappa * dt).exp()` from the loop body. -/
def expTerm (kappa dt : ℝ) : ℝ := Real.exp (-kappa * dt)

/-- `m = theta + (v - theta) * exp` from the loop body. -/
def condMean (kappa theta dt v : ℝ) : ℝ := theta + (v - theta) * expTerm kappa dt

/-- `s2 = v * sigma**2 * exp * (1 - exp) / kappa + theta * sigma**2 * (1 - exp)**2 / (2 * kappa)`
from the loop body. -/
def condVar (kappa theta sigma dt v : ℝ) : ℝ :=
  v * sigma ^ 2 * expTerm kappa dt * (1 - expTerm kappa dt) / kappa +
    theta * sigma ^ 2 * (1 - expTerm kappa dt) ^ 2 / (2 * kappa)

/-- `psi = s2 / (m**2 + EPSILON)` from the loop body. -/
def psiOf (kappa theta sigma dt v : ℝ) : ℝ :=
  condVar kappa theta sigma dt v / (condMean kappa theta dt v ^ 2 + EPSILON)

/-- `p = (psi - 1) / (psi + 1)` from the high-variance branch of the loop body. -/
def pOf (kappa theta sigma dt v : ℝ) : ℝ :=
  (psiOf kappa theta sigma dt v - 1) / (psiOf kappa theta sigma dt v + 1)

/-- The loop body of `generate_cir` for a single path: given the parameters,
the current value `v = output[:, i_step]`, the normal draw `z = randn[:, i_step]`
and the uniform draw `u = rand[:, i_step]`, produce `output[:, i_step + 1]`.
The `torch.where` selections become `if` expressions because all arithmetic
here is elementwise. -/
def cirStep (kappa theta sigma dt v z u : ℝ) : ℝ :=
  let m := condMean kappa theta dt v
  let psi := psiOf kappa theta sigma dt v
  let b := Real.sqrt ((2 / psi) - 1 + Real.sqrt (2 / psi) * Real.sqrt (2 / psi - 1))
  let a := m / (1 + b ^ 2)
  let next_0 := a * (b + z) ^ 2
  let p := (psi - 1) / (psi + 1)
  let beta := (1 - p) / (m + EPSILON)
  let pinv := Real.log ((1 - p) / (1 - u + EPSILON)) / beta
  let next_1 := if u > p then pinv else 0
  if psi ≤ PSI_CRIT then next_0 else next_1

/-- The output grid of the simulation loop: `cirGrid kappa theta sigma dt x0 randn rand j i`
is `output[j, i]`, where all parameters are given per path (`j`) and the draw
arrays per path and step.  Column 0 is the initial state; column `i + 1` is
the loop body applied to column `i` and the step-`i` draws. -/
def cirGrid (kappa theta sigma dt x0 : ℕ → ℝ) (randn rand : ℕ → ℕ → ℝ) (j : ℕ) : ℕ → ℝ
  | 0 => x0 j
  | i + 1 =>
      cirStep (kappa j) (theta j) (sigma j) (dt j)
        (cirGrid kappa theta sigma dt x0 randn rand j i) (randn j i) (rand j i)

/-- Errors the torch runtime can raise in `generate_cir`: indexing an empty
tuple / zero-width tensor, or failing to broadcast a parameter against the
path dimension. -/
inductive CIRError where
  | IndexError : CIRError
  | ShapeMismatch : CIRError
deriving DecidableEq

/-- The `init_state` argument: either a bare float/tensor or a tuple of them
(a tensor is a list of reals; a bare float is a one-element tensor). -/
inductive InitArg where
  | bare (t : List ℝ) : InitArg
  | tup (ts : List (List ℝ)) : InitArg

/-- `if isinstance(init_state, (float, Tensor)): init_state = (init_state,)`:
a bare value is wrapped into a one-element tuple. -/
def normInit : InitArg → List (List ℝ)
  | .bare t => [t]
  | .tup ts => ts

/-- A parameter tensor broadcasts against `n` paths iff it has one element or
exactly `n` elements. -/
abbrev broadcastable (n : ℕ) (xs : List ℝ) : Prop := xs.length = 1 ∨ xs.length = n

/-- The per-path value of a broadcast parameter: a one-element tensor
contributes its single value to every path, otherwise path `j` reads entry `j`. -/
def bval (xs : List ℝ) (j : ℕ) : ℝ := if xs.length = 1 then xs.headI else xs.getD j 0

/-- The embedding of `generate_cir`.  The draw arrays `randn` and `rand`
(filled by `torch.randn_like` / `torch.rand_like` in the source) are passed
in explicitly.  Behaviour mirrors the source line by line:

* a bare `init_state` is wrapped into a tuple; an empty tuple fails on
  `init_state[0]`, and `n_steps = 0` fails on `output[:, 0]`;
* `output[:, 0] = init_state[0]` requires `init_state[0]` to broadcast
  against the path dimension, and runs before the loop;
* the loop body's arithmetic requires `kappa`, `theta`, `sigma`, `dt` to
  broadcast against the path dimension, but only executes when
  `n_steps ≥ 2` (the loop runs `n_steps - 1` times);
* otherwise the fully populated grid is returned. -/
def generate_cir (n_paths n_steps : ℕ) (init_state : InitArg)
    (kappa theta sigma dt : List ℝ) (randn rand : ℕ → ℕ → ℝ) :
    Except CIRError (List (List ℝ)) :=
  match normInit init_state with
  | [] => .error .IndexError
  | init0 :: _ =>
    if n_steps = 0 then .error .IndexError
    else if ¬ broadcastable n_paths init0 then .error .ShapeMismatch
    else if 2 ≤ n_steps ∧ ¬ (broadcastable n_paths kappa ∧ broadcastable n_paths theta ∧
        broadcastable n_paths sigma ∧ broadcastable n_paths dt) then .error .ShapeMismatch
    else .ok ((List.range n_paths).map fun j => (List.range n_steps).map fun i =>
        cirGrid (bval kappa) (bval theta) (bval sigma) (bval dt) (bval init0) randn rand j i)

/-! ## Spec-side definitions

These two samplers are written from the specification's words (§4.1, step 5)
for the two regimes, to be compared with the code-side `cirStep`. -/

/-- The spec's low-variance sampler: `b² = 2/psi − 1 + sqrt(2/psi)·sqrt(2/psi − 1)`,
`b = sqrt(b²)`, `a = m / (1 + b²)`, `X(t+Δt) = a·(b + Z)²`. -/
def lowVarSample (m psi z : ℝ) : ℝ :=
  let bsq := 2 / psi - 1 + Real.sqrt (2 / psi) * Real.sqrt (2 / psi - 1)
  let b := Real.sqrt bsq
  let a := m / (1 + b ^ 2)
  a * (b + z) ^ 2

/-- The spec's high-variance sampler: `p = (psi − 1)/(psi + 1)`,
`β = (1 − p)/(m + ε)`, `pinv = ln((1 − p)/(1 − U + ε))/β`, and
`X(t+Δt) = pinv` if `U > p`, else `0`. -/
def highVarSample (m psi u : ℝ) : ℝ :=
  let p := (psi - 1) / (psi + 1)
  let beta := (1 - p) / (m + EPSILON)
  let pinv := Real.log ((1 - p) / (1 - u + EPSILON)) / beta
  if u > p then pinv else 0

/-! ## Helper lemmas -/

/-- The loop body is exactly the regime selection between the two spec samplers. -/
lemma cirStep_eq_select (kappa theta sigma dt v z u : ℝ) :
    cirStep kappa theta sigma dt v z u =
      if psiOf kappa theta sigma dt v ≤ PSI_CRIT then
        lowVarSample (condMean kappa theta dt v) (psiOf kappa theta sigma dt v) z
      else
        highVarSample (condMean kappa theta dt v) (psiOf kappa theta sigma dt v) u := rfl

lemma expTerm_pos (kappa dt : ℝ) : 0 < expTerm kappa dt := Real.exp_pos _

lemma expTerm_le_one {kappa dt : ℝ} (hk : 0 ≤ kappa) (hdt : 0 ≤ dt) :
    expTerm kappa dt ≤ 1 := by
  unfold expTerm
  rw [Real.exp_le_one_iff]
  nlinarith

lemma condMean_nonneg {kappa theta dt v : ℝ} (hk : 0 ≤ kappa) (hdt : 0 ≤ dt)
    (hθ : 0 ≤ theta) (hv : 0 ≤ v) : 0 ≤ condMean kappa theta dt v := by
  unfold condMean
  have h1 := expTerm_pos kappa dt
  have h2 := expTerm_le_one hk hdt
  nlinarith [mul_nonneg hv h1.le, mul_nonneg hθ (sub_nonneg.mpr h2)]

lemma condVar_nonneg {kappa theta sigma dt v : ℝ} (hk : 0 < kappa) (hdt : 0 ≤ dt)
    (hθ : 0 ≤ theta) (hv : 0 ≤ v) : 0 ≤ condVar kappa theta sigma dt v := by
  unfold condVar
  have h1 := expTerm_pos kappa dt
  have h2 := expTerm_le_one hk.le hdt
  have t1 : 0 ≤ v * sigma ^ 2 * expTerm kappa dt * (1 - expTerm kappa dt) / kappa :=
    div_nonneg
      (mul_nonneg (mul_nonneg (mul_nonneg hv (sq_nonneg _)) h1.le) (sub_nonneg.mpr h2)) hk.le
  have t2 : 0 ≤ theta * sigma ^ 2 * (1 - expTerm kappa dt) ^ 2 / (2 * kappa) :=
    div_nonneg (mul_nonneg (mul_nonneg hθ (sq_nonneg _)) (sq_nonneg _)) (by linarith)
  linarith

lemma EPSILON_pos : (0 : ℝ) < EPSILON := by norm_num [EPSILON]

lemma psiOf_nonneg {kappa theta sigma dt v : ℝ} (hk : 0 < kappa) (hdt : 0 ≤ dt)
    (hθ : 0 ≤ theta) (hv : 0 ≤ v) : 0 ≤ psiOf kappa theta sigma dt v := by
  have h := EPSILON_pos
  exact div_nonneg (condVar_nonneg hk hdt hθ hv) (by positivity)

/-- One simulation step preserves non-negativity, provided the uniform draw
does not land in the `EPSILON`-wide window just above the point-mass
probability `p` of the high-variance branch. -/
lemma cirStep_nonneg {kappa theta sigma dt v z u : ℝ}
    (hk : 0 < kappa) (hdt : 0 ≤ dt) (hθ : 0 ≤ theta) (hv : 0 ≤ v) (hu1 : u < 1)
    (hwin : PSI_CRIT < psiOf kappa theta sigma dt v →
      u ≤ pOf kappa theta sigma dt v ∨ pOf kappa theta sigma dt v + EPSILON ≤ u) :
    0 ≤ cirStep kappa theta sigma dt v z u := by
  rw [cirStep_eq_select]
  have hm0 : 0 ≤ condMean kappa theta dt v := condMean_nonneg hk.le hdt hθ hv
  have heps := EPSILON_pos
  by_cases hc : psiOf kappa theta sigma dt v ≤ PSI_CRIT
  · rw [if_pos hc]
    simp only [lowVarSample]
    have hb := Real.sqrt_nonneg
      (2 / psiOf kappa theta sigma dt v - 1 + Real.sqrt (2 / psiOf kappa theta sigma dt v) *
        Real.sqrt (2 / psiOf kappa theta sigma dt v - 1))
    exact mul_nonneg (div_nonneg hm0 (by positivity)) (sq_nonneg _)
  · rw [if_neg hc]
    simp only [highVarSample]
    set psi := psiOf kappa theta sigma dt v with hpsi
    have hgt : PSI_CRIT < psi := not_le.mp hc
    have hcrit : PSI_CRIT = 1.5 := rfl
    have hpsi1 : (0 : ℝ) < psi + 1 := by rw [hcrit] at hgt; linarith
    have hpOf : pOf kappa theta sigma dt v = (psi - 1) / (psi + 1) := rfl
    have hplt : (psi - 1) / (psi + 1) < 1 := (div_lt_one hpsi1).mpr (by linarith)
    by_cases hup : u > (psi - 1) / (psi + 1)
    · rw [if_pos hup]
      rcases hwin hgt with hle | hge
      · rw [hpOf] at hle; linarith
      · rw [hpOf] at hge
        have hden : (0 : ℝ) < 1 - u + EPSILON := by linarith
        have hlog : 0 ≤ Real.log ((1 - (psi - 1) / (psi + 1)) / (1 - u + EPSILON)) :=
          Real.log_nonneg ((one_le_div hden).mpr (by linarith))
        have hbeta : 0 < (1 - (psi - 1) / (psi + 1)) / (condMean kappa theta dt v + EPSILON) :=
          div_pos (by linarith) (by linarith)
        exact div_nonneg hlog hbeta.le
    · rw [if_neg hup]

/-- Non-negativity of the whole grid under the same per-step window condition
on the uniform draws. -/
lemma cirGrid_nonneg (kappa theta sigma dt x0 : ℕ → ℝ) (rn rd : ℕ → ℕ → ℝ)
    (hk : ∀ j, 0 < kappa j) (hdt : ∀ j, 0 ≤ dt j) (hθ : ∀ j, 0 ≤ theta j)
    (hx : ∀ j, 0 ≤ x0 j) (hrd : ∀ j i, rd j i < 1)
    (hwin : ∀ j i,
      PSI_CRIT < psiOf (kappa j) (theta j) (sigma j) (dt j)
          (cirGrid kappa theta sigma dt x0 rn rd j i) →
        rd j i ≤ pOf (kappa j) (theta j) (sigma j) (dt j)
            (cirGrid kappa theta sigma dt x0 rn rd j i) ∨
        pOf (kappa j) (theta j) (sigma j) (dt j)
            (cirGrid kappa theta sigma dt x0 rn rd j i) + EPSILON ≤ rd j i) :
    ∀ j i, 0 ≤ cirGrid kappa theta sigma dt x0 rn rd j i := by
  intro j i
  induction i with
  | zero => exact hx j
  | succ i ih =>
      exact cirStep_nonneg (hk j) (hdt j) (hθ j) ih (hrd j i) (hwin j i)

/-- With `sigma = 0` the conditional variance vanishes. -/
lemma condVar_sigma_zero (kappa theta dt v : ℝ) : condVar kappa theta 0 dt v = 0 := by
  unfold condVar
  ring

/-- With `sigma = 0` the regime ratio `psi` is exactly `0`. -/
lemma psiOf_sigma_zero (kappa theta dt v : ℝ) : psiOf kappa theta 0 dt v = 0 := by
  unfold psiOf
  rw [condVar_sigma_zero, zero_div]

/-- The low-variance sampler degenerates at `psi = 0`: in real arithmetic with
`x / 0 = 0`, `b` collapses to `sqrt (-1) = 0` and the sample becomes `m * z²`. -/
lemma lowVarSample_psi_zero (m z : ℝ) : lowVarSample m 0 z = m * z ^ 2 := by
  simp only [lowVarSample, div_zero, Real.sqrt_zero, zero_mul, zero_sub, add_zero]
  rw [Real.sqrt_eq_zero_of_nonpos (by norm_num)]
  norm_num

/-- With `sigma = 0` one simulation step returns `m * z²`, not the
deterministic conditional mean `m`. -/
lemma cirStep_sigma_zero (kappa theta dt v z u : ℝ) :
    cirStep kappa theta 0 dt v z u = condMean kappa theta dt v * z ^ 2 := by
  rw [cirStep_eq_select, psiOf_sigma_zero, if_pos (by norm_num [PSI_CRIT]),
    lowVarSample_psi_zero]

/-- The successful branch of `generate_cir`: a nonzero step count, a
broadcastable initial state, and (whenever the loop runs) broadcastable
parameters produce the fully populated grid. -/
lemma generate_cir_ok {np ns : ℕ} {init0 : List ℝ} {rest : List (List ℝ)}
    {kappa theta sigma dt : List ℝ} {rn rd : ℕ → ℕ → ℝ}
    (hns : ns ≠ 0) (hinit : broadcastable np init0)
    (hparams : 2 ≤ ns → broadcastable np kappa ∧ broadcastable np theta ∧
      broadcastable np sigma ∧ broadcastable np dt) :
    generate_cir np ns (.tup (init0 :: rest)) kappa theta sigma dt rn rd =
      .ok ((List.range np).map fun j => (List.range ns).map fun i =>
        cirGrid (bval kappa) (bval theta) (bval sigma) (bval dt) (bval init0) rn rd j i) := by
  simp only [generate_cir, normInit]
  rw [if_neg hns, if_neg (not_not_intro hinit),
    if_neg (fun h => h.2 (hparams h.1))]

/-- A non-broadcastable initial state fails on `output[:, 0] = init_state[0]`
for every nonzero step count. -/
lemma generate_cir_init_err {np ns : ℕ} {init0 : List ℝ} {rest : List (List ℝ)}
    {kappa theta sigma dt : List ℝ} {rn rd : ℕ → ℕ → ℝ}
    (hns : ns ≠ 0) (hbad : ¬ broadcastable np init0) :
    generate_cir np ns (.tup (init0 :: rest)) kappa theta sigma dt rn rd =
      .error .ShapeMismatch := by
  simp only [generate_cir, normInit]
  rw [if_neg hns, if_pos hbad]

/-- A non-broadcastable `kappa`, `theta`, `sigma` or `dt` fails inside the
first loop iteration, which only runs when `n_steps ≥ 2`. -/
lemma generate_cir_param_err {np ns : ℕ} {init0 : List ℝ} {rest : List (List ℝ)}
    {kappa theta sigma dt : List ℝ} {rn rd : ℕ → ℕ → ℝ}
    (hns : 2 ≤ ns) (hinit : broadcastable np init0)
    (hbad : ¬ (broadcastable np kappa ∧ broadcastable np theta ∧
      broadcastable np sigma ∧ broadcastable np dt)) :
    generate_cir np ns (.tup (init0 :: rest)) kappa theta sigma dt rn rd =
      .error .ShapeMismatch := by
  simp only [generate_cir, normInit]
  rw [if_neg (by omega : ¬ ns = 0), if_neg (not_not_intro hinit), if_pos ⟨hns, hbad⟩]

/-! ### Numeric bounds for a concrete high-variance instance

With `kappa = theta = dt = v = 1` and `sigma = 40000` the conditional mean is
exactly `1` while `psi` is of order `10^8`, so the high-variance branch is
taken and its point mass `p` sits within `10^-9` of `1`. -/

lemma expTerm_one_bounds : 0.29 < expTerm 1 1 ∧ expTerm 1 1 < 0.4 := by
  have hE : expTerm 1 1 = (Real.exp 1)⁻¹ := by
    unfold expTerm
    rw [show (-1 : ℝ) * 1 = -1 by norm_num, Real.exp_neg]
  have h1 := Real.exp_one_gt_d9
  have h2 := Real.exp_one_lt_d9
  have hpos : (0 : ℝ) < Real.exp 1 := Real.exp_pos 1
  have hinv : (0 : ℝ) < (Real.exp 1)⁻¹ := inv_pos.mpr hpos
  have hcancel : (Real.exp 1)⁻¹ * Real.exp 1 = 1 := inv_mul_cancel₀ (ne_of_gt hpos)
  constructor
  · rw [hE]
    nlinarith [mul_pos hinv (sub_pos.mpr h2)]
  · rw [hE]
    nlinarith [mul_pos hinv (sub_pos.mpr h1)]

lemma instMean : condMean 1 1 1 1 = 1 := by
  unfold condMean
  ring

lemma instPsi_eq : psiOf 1 1 40000 1 1 = 800000000 * (1 - expTerm 1 1 ^ 2) / (1 + EPSILON) := by
  unfold psiOf condVar condMean
  ring_nf

lemma instPsi_bounds :
    (170000000 : ℝ) < psiOf 1 1 40000 1 1 ∧ psiOf 1 1 40000 1 1 < 900000000 := by
  obtain ⟨hl, hu⟩ := expTerm_one_bounds
  have hd : (0 : ℝ) < 1 + EPSILON := by norm_num [EPSILON]
  rw [instPsi_eq]
  constructor
  · rw [lt_div_iff₀ hd]
    have hsq : expTerm 1 1 ^ 2 < 0.16 := by nlinarith
    norm_num [EPSILON]
    nlinarith
  · rw [div_lt_iff₀ hd]
    have hsq : (0 : ℝ) ≤ expTerm 1 1 ^ 2 := sq_nonneg _
    norm_num [EPSILON]
    nlinarith

lemma instP_window :
    pOf 1 1 40000 1 1 < 1 - 2e-9 ∧ 1 - 2e-9 < pOf 1 1 40000 1 1 + EPSILON := by
  obtain ⟨hψl, hψu⟩ := instPsi_bounds
  have hpos : (0 : ℝ) < psiOf 1 1 40000 1 1 + 1 := by linarith
  have hpOf : pOf 1 1 40000 1 1 =
      (psiOf 1 1 40000 1 1 - 1) / (psiOf 1 1 40000 1 1 + 1) := rfl
  constructor
  · rw [hpOf, div_lt_iff₀ hpos]
    nlinarith
  · rw [hpOf]
    have key : (1 - 2e-9 - EPSILON) * (psiOf 1 1 40000 1 1 + 1) <
        psiOf 1 1 40000 1 1 - 1 := by
      norm_num [EPSILON]
      nlinarith
    have := (lt_div_iff₀ hpos).mpr key
    linarith [this]

/-- At the concrete high-variance instance, a uniform draw of `1 - 2e-9`
lands in the epsilon window just above `p` and the step output is negative,
even though the conditional mean is exactly `1`. -/
lemma instStep_neg (z : ℝ) : cirStep 1 1 40000 1 1 z (1 - 2e-9) < 0 := by
  obtain ⟨hw1, hw2⟩ := instP_window
  have hψ := instPsi_bounds.1
  have hpOf : pOf 1 1 40000 1 1 =
      (psiOf 1 1 40000 1 1 - 1) / (psiOf 1 1 40000 1 1 + 1) := rfl
  rw [cirStep_eq_select, if_neg (not_le.mpr (by norm_num [PSI_CRIT]; linarith))]
  simp only [highVarSample]
  rw [hpOf] at hw1 hw2
  rw [if_pos hw1, instMean]
  have hp1 : (psiOf 1 1 40000 1 1 - 1) / (psiOf 1 1 40000 1 1 + 1) < 1 := by linarith
  have hden : (0 : ℝ) < 1 - (1 - 2e-9) + EPSILON := by norm_num [EPSILON]
  have harg_pos : 0 < (1 - (psiOf 1 1 40000 1 1 - 1) / (psiOf 1 1 40000 1 1 + 1)) /
      (1 - (1 - 2e-9) + EPSILON) := div_pos (by linarith) hden
  have harg_lt1 : (1 - (psiOf 1 1 40000 1 1 - 1) / (psiOf 1 1 40000 1 1 + 1)) /
      (1 - (1 - 2e-9) + EPSILON) < 1 := (div_lt_one hden).mpr (by linarith)
  have hbeta : 0 < (1 - (psiOf 1 1 40000 1 1 - 1) / (psiOf 1 1 40000 1 1 + 1)) /
      (1 + EPSILON) := div_pos (by linarith) (by norm_num [EPSILON])
  exact div_neg_of_neg_of_pos (Real.log_neg harg_pos harg_lt1) hbeta

/-- The grid value at `(j, i)` only depends on the first `i` columns of the
draw arrays for path `j`. -/
lemma cirGrid_congr (kappa theta sigma dt x0 : ℕ → ℝ) (rn rd rn' rd' : ℕ → ℕ → ℝ)
    (j i : ℕ) (h : ∀ k, k < i → rn j k = rn' j k ∧ rd j k = rd' j k) :
    cirGrid kappa theta sigma dt x0 rn rd j i =
      cirGrid kappa theta sigma dt x0 rn' rd' j i := by
  induction i with
  | zero => rfl
  | succ i ih =>
      simp only [cirGrid]
      rw [ih fun k hk => h k (Nat.lt_succ_of_lt hk),
        (h i (Nat.lt_succ_self i)).1, (h i (Nat.lt_succ_self i)).2]

/-! ## Claim theorems -/

/-- C1: the value written to column `i + 1` is selected elementwise by the
regime test: where `psi ≤ 1.5` it is the low-variance sample `a·(b + Z)²`
applied to that path's normal draw for step `i`; where `psi > 1.5` it is the
high-variance inverse-CDF sample applied to that path's uniform draw; and a
single step can route different paths through different branches. -/
theorem C1_regime_selection :
    (∀ (kappa theta sigma dt x0 : ℕ → ℝ) (rn rd : ℕ → ℕ → ℝ) (j i : ℕ),
      cirGrid kappa theta sigma dt x0 rn rd j (i + 1) =
        if psiOf (kappa j) (theta j) (sigma j) (dt j)
            (cirGrid kappa theta sigma dt x0 rn rd j i) ≤ PSI_CRIT then
          lowVarSample
            (condMean (kappa j) (theta j) (dt j) (cirGrid kappa theta sigma dt x0 rn rd j i))
            (psiOf (kappa j) (theta j) (sigma j) (dt j)
              (cirGrid kappa theta sigma dt x0 rn rd j i)) (rn j i)
        else
          highVarSample
            (condMean (kappa j) (theta j) (dt j) (cirGrid kappa theta sigma dt x0 rn rd j i))
            (psiOf (kappa j) (theta j) (sigma j) (dt j)
              (cirGrid kappa theta sigma dt x0 rn rd j i)) (rd j i)) ∧
    (∃ (kappa theta sigma dt x0 : ℕ → ℝ) (rn rd : ℕ → ℕ → ℝ) (i j j' : ℕ),
      psiOf (kappa j) (theta j) (sigma j) (dt j)
          (cirGrid kappa theta sigma dt x0 rn rd j i) ≤ PSI_CRIT ∧
      PSI_CRIT < psiOf (kappa j') (theta j') (sigma j') (dt j')
          (cirGrid kappa theta sigma dt x0 rn rd j' i)) := by
  constructor
  · intro kappa theta sigma dt x0 rn rd j i
    exact cirStep_eq_select (kappa j) (theta j) (sigma j) (dt j)
      (cirGrid kappa theta sigma dt x0 rn rd j i) (rn j i) (rd j i)
  · refine ⟨fun _ => 1, fun _ => 1, fun j => if j = 0 then 0 else 40000, fun _ => 1,
      fun _ => 1, fun _ _ => 0, fun _ _ => 0, 0, 0, 1, ?_, ?_⟩
    · show psiOf 1 1 (if (0 : ℕ) = 0 then (0 : ℝ) else 40000) 1 1 ≤ PSI_CRIT
      rw [if_pos rfl, psiOf_sigma_zero]
      norm_num [PSI_CRIT]
    · show PSI_CRIT < psiOf 1 1 (if (1 : ℕ) = 0 then (0 : ℝ) else 40000) 1 1
      rw [if_neg (by norm_num)]
      have := instPsi_bounds.1
      norm_num [PSI_CRIT]
      linarith

/-- C2: the per-step moments used for regime classification are
`exp_term = exp(−κ·dt)`, `m = θ + (v − θ)·exp_term`,
`s2 = v·σ²·exp_term·(1 − exp_term)/κ + θ·σ²·(1 − exp_term)²/(2κ)` and
`psi = s2/(m² + ε)` with `ε = 1e-8`, where `v` is the previously written
column. -/
theorem C2_step_moments :
    (∀ kappa theta sigma dt v : ℝ,
      condMean kappa theta dt v = theta + (v - theta) * Real.exp (-(kappa * dt)) ∧
      condVar kappa theta sigma dt v =
        v * sigma ^ 2 * Real.exp (-(kappa * dt)) * (1 - Real.exp (-(kappa * dt))) / kappa +
          theta * sigma ^ 2 * (1 - Real.exp (-(kappa * dt))) ^ 2 / (2 * kappa) ∧
      psiOf kappa theta sigma dt v =
        condVar kappa theta sigma dt v / (condMean kappa theta dt v ^ 2 + 1e-8)) ∧
    (∀ (kappa theta sigma dt x0 : ℕ → ℝ) (rn rd : ℕ → ℕ → ℝ) (j i : ℕ),
      cirGrid kappa theta sigma dt x0 rn rd j (i + 1) =
        cirStep (kappa j) (theta j) (sigma j) (dt j)
          (cirGrid kappa theta sigma dt x0 rn rd j i) (rn j i) (rd j i)) := by
  constructor
  · intro kappa theta sigma dt v
    refine ⟨?_, ?_, rfl⟩
    · unfold condMean expTerm
      rw [neg_mul]
    · unfold condVar expTerm
      rw [neg_mul]
  · intro kappa theta sigma dt x0 rn rd j i
    rfl

/-- C3: for every valid call (`n_paths ≥ 1`, `n_steps ≥ 1`, broadcastable
parameters) the result is a grid of `n_paths` rows of `n_steps` entries whose
column 0 is the broadcast initial state. -/
theorem C3_shape_and_init_column :
    ∀ (np ns : ℕ) (init0 : List ℝ) (rest : List (List ℝ))
      (kappa theta sigma dt : List ℝ) (rn rd : ℕ → ℕ → ℝ),
      1 ≤ np → 1 ≤ ns → broadcastable np init0 → broadcastable np kappa →
      broadcastable np theta → broadcastable np sigma → broadcastable np dt →
      ∃ g, generate_cir np ns (.tup (init0 :: rest)) kappa theta sigma dt rn rd = .ok g ∧
        g.length = np ∧ (∀ row ∈ g, row.length = ns) ∧
        ∀ j, j < np → ∃ row, g.get? j = some row ∧ row.get? 0 = some (bval init0 j) := by
  intro np ns init0 rest kappa theta sigma dt rn rd hnp hns hinit hk hθ hσ hdt
  refine ⟨_, generate_cir_ok (by omega) hinit (fun _ => ⟨hk, hθ, hσ, hdt⟩), ?_, ?_, ?_⟩
  · simp
  · intro row hrow
    simp only [List.mem_map, List.mem_range] at hrow
    obtain ⟨j, _, rfl⟩ := hrow
    simp
  · intro j hj
    refine ⟨(List.range ns).map fun i =>
      cirGrid (bval kappa) (bval theta) (bval sigma) (bval dt) (bval init0) rn rd j i,
      ?_, ?_⟩
    · rw [List.get?_map, List.get?_range hj]
      rfl
    · rw [List.get?_map, List.get?_range (by omega : 0 < ns)]
      rfl

/-- C3 witness: a concrete valid call. -/
theorem C3_shape_and_init_column_witness :
    ∃ g, generate_cir 2 3 (.tup [[1]]) [1] [1] [1] [1]
        (fun _ _ => 0) (fun _ _ => 0) = .ok g ∧
      g.length = 2 ∧ (∀ row ∈ g, row.length = 3) ∧
      ∀ j, j < 2 → ∃ row, g.get? j = some row ∧ row.get? 0 = some (bval [1] j) :=
  C3_shape_and_init_column 2 3 [1] [] [1] [1] [1] [1] (fun _ _ => 0) (fun _ _ => 0)
    (by norm_num) (by norm_num) (Or.inl rfl) (Or.inl rfl) (Or.inl rfl) (Or.inl rfl)
    (Or.inl rfl)

/-- C4: two invocations with identical parameters and identical draw arrays
produce identical output. -/
theorem C4_determinism :
    ∀ (np ns : ℕ) (init : InitArg) (kappa theta sigma dt : List ℝ)
      (rn rd rn' rd' : ℕ → ℕ → ℝ), rn = rn' → rd = rd' →
      generate_cir np ns init kappa theta sigma dt rn rd =
        generate_cir np ns init kappa theta sigma dt rn' rd' := by
  intro np ns init kappa theta sigma dt rn rd rn' rd' h1 h2
  rw [h1, h2]

/-- C4 witness: a concrete pair of identical invocations. -/
theorem C4_determinism_witness :
    generate_cir 2 5 (.bare [1]) [1] [1] [1] [1] (fun _ _ => 0) (fun _ _ => 0) =
      generate_cir 2 5 (.bare [1]) [1] [1] [1] [1] (fun _ _ => 0) (fun _ _ => 0) :=
  C4_determinism 2 5 (.bare [1]) [1] [1] [1] [1]
    (fun _ _ => 0) (fun _ _ => 0) (fun _ _ => 0) (fun _ _ => 0) rfl rfl

/-- C5 counterexample: with `kappa = theta = sigma = dt > 0` and `X0 = 1 ≥ 0`,
the conditional mean at the first step is exactly `1` — not near `0` — yet a
uniform draw of `1 - 2e-9`, which lands in the `EPSILON` window just above the
high-variance point mass `p`, makes the step-1 entry negative. -/
theorem C5_counterexample :
    condMean 1 1 1 1 = 1 ∧
    cirGrid (fun _ => 1) (fun _ => 1) (fun _ => 40000) (fun _ => 1) (fun _ => 1)
      (fun _ _ => 0) (fun _ _ => 1 - 2e-9) 0 1 < 0 :=
  ⟨instMean, instStep_neg 0⟩

/-- C5 (amended): with `kappa, theta, sigma, dt > 0`, `X0 ≥ 0` and uniform
draws in `[0, 1)`, every grid entry is `≥ 0` provided no uniform draw consumed
by the high-variance branch falls in the `EPSILON`-wide window just above that
branch's point-mass probability `p`; draws in that window can give negative
entries at any magnitude of the conditional mean, not only near `m ≈ 0`. -/
theorem C5_nonneg_outside_guard_window :
    ∀ (kappa theta sigma dt x0 : ℕ → ℝ) (rn rd : ℕ → ℕ → ℝ),
      (∀ j, 0 < kappa j) → (∀ j, 0 < theta j) → (∀ j, 0 < sigma j) →
      (∀ j, 0 < dt j) → (∀ j, 0 ≤ x0 j) → (∀ j i, rd j i < 1) →
      (∀ j i, PSI_CRIT < psiOf (kappa j) (theta j) (sigma j) (dt j)
          (cirGrid kappa theta sigma dt x0 rn rd j i) →
        rd j i ≤ pOf (kappa j) (theta j) (sigma j) (dt j)
            (cirGrid kappa theta sigma dt x0 rn rd j i) ∨
        pOf (kappa j) (theta j) (sigma j) (dt j)
            (cirGrid kappa theta sigma dt x0 rn rd j i) + EPSILON ≤ rd j i) →
      ∀ j i, 0 ≤ cirGrid kappa theta sigma dt x0 rn rd j i := by
  intro kappa theta sigma dt x0 rn rd hk hθ hσ hdt hx hrd hwin
  exact cirGrid_nonneg kappa theta sigma dt x0 rn rd hk (fun j => (hdt j).le)
    (fun j => (hθ j).le) hx hrd hwin

/-- C5 witness: a concrete run satisfying all the hypotheses. -/
theorem C5_nonneg_outside_guard_window_witness :
    0 ≤ cirGrid (fun _ => 1) (fun _ => 1) (fun _ => 1) (fun _ => 1) (fun _ => 1)
      (fun _ _ => 0) (fun _ _ => 0) 0 5 := by
  apply C5_nonneg_outside_guard_window
  · intro j; norm_num
  · intro j; norm_num
  · intro j; norm_num
  · intro j; norm_num
  · intro j; norm_num
  · intro j i; norm_num
  · intro j i h
    left
    have hcrit : PSI_CRIT = 1.5 := rfl
    rw [hcrit] at h
    unfold pOf
    exact div_nonneg (by linarith) (by linarith)

/-- C6 counterexample: with `sigma = 0`, `kappa = dt = 1`, `theta = 0`,
`X0 = 1` and zero normal draws, the entry at step 1 is `0`, not the claimed
deterministic mean-reversion value `theta + (X0 - theta)·exp(-kappa·1·dt)`. -/
theorem C6_counterexample :
    cirGrid (fun _ => 1) (fun _ => 0) (fun _ => 0) (fun _ => 1) (fun _ => 1)
        (fun _ _ => 0) (fun _ _ => 0) 0 1 ≠
      0 + (1 - 0) * Real.exp (-(1 * (1 * 1))) := by
  have h0 : cirGrid (fun _ => 1) (fun _ => 0) (fun _ => 0) (fun _ => 1) (fun _ => 1)
      (fun _ _ => 0) (fun _ _ => 0) 0 1 = 0 := by
    show cirStep 1 0 0 1 1 0 0 = 0
    rw [cirStep_sigma_zero]
    ring
  rw [h0]
  intro hEq
  have hpos := Real.exp_pos (-(1 * (1 * 1)) : ℝ)
  linarith

/-- C6 (amended): with `sigma = 0` the conditional variance and `psi` vanish,
so the low-variance branch is selected for every path, but its formula divides
by `psi = 0` and degenerates instead of reducing to the conditional mean: in
real arithmetic (where `x / 0 = 0`) each step produces `m · Z²`, which depends
on the normal draws, so the output is not the deterministic mean-reversion
trajectory. -/
theorem C6_sigma_zero_degenerates :
    ∀ (kappa theta dt x0 : ℕ → ℝ) (rn rd : ℕ → ℕ → ℝ) (j i : ℕ),
      psiOf (kappa j) (theta j) 0 (dt j)
          (cirGrid kappa theta (fun _ => 0) dt x0 rn rd j i) = 0 ∧
      cirGrid kappa theta (fun _ => 0) dt x0 rn rd j (i + 1) =
        condMean (kappa j) (theta j) (dt j)
            (cirGrid kappa theta (fun _ => 0) dt x0 rn rd j i) * (rn j i) ^ 2 := by
  intro kappa theta dt x0 rn rd j i
  exact ⟨psiOf_sigma_zero _ _ _ _,
    cirStep_sigma_zero (kappa j) (theta j) (dt j)
      (cirGrid kappa theta (fun _ => 0) dt x0 rn rd j i) (rn j i) (rd j i)⟩

/-- C7: with `n_steps = 1` the output is the broadcast initial column and no
randomness is consumed: the result is the same for any draw arrays. -/
theorem C7_single_step :
    ∀ (np : ℕ) (init0 : List ℝ) (rest : List (List ℝ))
      (kappa theta sigma dt : List ℝ) (rn rd rn' rd' : ℕ → ℕ → ℝ),
      generate_cir np 1 (.tup (init0 :: rest)) kappa theta sigma dt rn rd =
        generate_cir np 1 (.tup (init0 :: rest)) kappa theta sigma dt rn' rd' ∧
      (broadcastable np init0 →
        generate_cir np 1 (.tup (init0 :: rest)) kappa theta sigma dt rn rd =
          .ok ((List.range np).map fun j => [bval init0 j])) := by
  intro np init0 rest kappa theta sigma dt rn rd rn' rd'
  have hok : ∀ (f g : ℕ → ℕ → ℝ), broadcastable np init0 →
      generate_cir np 1 (.tup (init0 :: rest)) kappa theta sigma dt f g =
        .ok ((List.range np).map fun j => [bval init0 j]) := by
    intro f g hb
    rw [generate_cir_ok (by norm_num) hb (fun h => absurd h (by norm_num))]
    refine congrArg Except.ok ?_
    apply List.map_congr_left
    intro j _
    rfl
  constructor
  · by_cases hb : broadcastable np init0
    · rw [hok rn rd hb, hok rn' rd' hb]
    · rw [generate_cir_init_err (by norm_num) hb, generate_cir_init_err (by norm_num) hb]
  · exact hok rn rd

/-- C7 witness: a concrete single-step call with two different draw arrays. -/
theorem C7_single_step_witness :
    generate_cir 2 1 (.tup [[1]]) [1] [1] [1] [1] (fun _ _ => 0) (fun _ _ => 0) =
        generate_cir 2 1 (.tup [[1]]) [1] [1] [1] [1] (fun _ _ => 1) (fun _ _ => 1) ∧
    generate_cir 2 1 (.tup [[1]]) [1] [1] [1] [1] (fun _ _ => 0) (fun _ _ => 0) =
      .ok ((List.range 2).map fun j => [bval [1] j]) := by
  have h := C7_single_step 2 [1] [] [1] [1] [1] [1]
    (fun _ _ => 0) (fun _ _ => 0) (fun _ _ => 1) (fun _ _ => 1)
  exact ⟨h.1, h.2 (Or.inl rfl)⟩

/-- C8: column `n_steps - 1` of the two draw arrays is never used: changing
only that column of either array leaves the output unchanged. -/
theorem C8_last_draw_column_unused :
    ∀ (np ns : ℕ) (init : InitArg) (kappa theta sigma dt : List ℝ)
      (rn rd rn' rd' : ℕ → ℕ → ℝ),
      (∀ j k, k ≠ ns - 1 → rn j k = rn' j k) →
      (∀ j k, k ≠ ns - 1 → rd j k = rd' j k) →
      generate_cir np ns init kappa theta sigma dt rn rd =
        generate_cir np ns init kappa theta sigma dt rn' rd' := by
  intro np ns init kappa theta sigma dt rn rd rn' rd' hn hd
  rcases hI : normInit init with _ | ⟨init0, rest⟩ <;>
    simp only [generate_cir, hI]
  split_ifs <;> try rfl
  refine congrArg Except.ok ?_
  apply List.map_congr_left
  intro j _
  apply List.map_congr_left
  intro i hi
  rw [List.mem_range] at hi
  apply cirGrid_congr
  intro k hk
  have hkne : k ≠ ns - 1 := by omega
  exact ⟨hn j k hkne, hd j k hkne⟩

/-- C8 witness: a two-step run where the two draw arrays differ exactly in
column `n_steps - 1 = 1`. -/
theorem C8_last_draw_column_unused_witness :
    generate_cir 1 2 (.tup [[1]]) [1] [1] [1] [1] (fun _ _ => 0) (fun _ _ => 0) =
      generate_cir 1 2 (.tup [[1]]) [1] [1] [1] [1]
        (fun _ k => if k = 1 then 5 else 0) (fun _ k => if k = 1 then 9 / 10 else 0) :=
  C8_last_draw_column_unused 1 2 (.tup [[1]]) [1] [1] [1] [1]
    (fun _ _ => 0) (fun _ _ => 0) (fun _ k => if k = 1 then 5 else 0)
    (fun _ k => if k = 1 then 9 / 10 else 0)
    (fun _ k hk => (if_neg hk).symm) (fun _ k hk => (if_neg hk).symm)

/-- C9 counterexample: a `kappa` of length 3 cannot broadcast against 2 paths,
yet with `n_steps = 1` the call does not fail — it returns the initial column. -/
theorem C9_counterexample :
    generate_cir 2 1 (.tup [[1]]) [1, 2, 3] [1] [1] [1]
      (fun _ _ => 0) (fun _ _ => 0) = .ok [[1], [1]] := by
  rw [generate_cir_ok (by norm_num) (by decide) (fun h => absurd h (by norm_num))]
  rfl

/-- C9 (amended): a non-broadcastable `init_state` fails with ShapeMismatch
for every `n_steps ≥ 1`; non-broadcastable `kappa`, `theta`, `sigma` or `dt`
fail with ShapeMismatch only when `n_steps ≥ 2` (the step loop must run) —
with `n_steps = 1` such mismatches go undetected and a grid is returned; no
partial result is ever produced: every call yields either an error or a full
`n_paths × n_steps` grid. -/
theorem C9_failure_modes :
    ∀ (np ns : ℕ) (init0 : List ℝ) (rest : List (List ℝ))
      (kappa theta sigma dt : List ℝ) (rn rd : ℕ → ℕ → ℝ),
      (1 ≤ ns → ¬ broadcastable np init0 →
        generate_cir np ns (.tup (init0 :: rest)) kappa theta sigma dt rn rd =
          .error .ShapeMismatch) ∧
      (2 ≤ ns → broadcastable np init0 →
        ¬ (broadcastable np kappa ∧ broadcastable np theta ∧
            broadcastable np sigma ∧ broadcastable np dt) →
        generate_cir np ns (.tup (init0 :: rest)) kappa theta sigma dt rn rd =
          .error .ShapeMismatch) ∧
      (1 ≤ ns → broadcastable np init0 →
        broadcastable np kappa → broadcastable np theta →
        broadcastable np sigma → broadcastable np dt →
        ∃ g, generate_cir np ns (.tup (init0 :: rest)) kappa theta sigma dt rn rd = .ok g ∧
          g.length = np ∧ ∀ row ∈ g, row.length = ns) := by
  intro np ns init0 rest kappa theta sigma dt rn rd
  refine ⟨?_, ?_, ?_⟩
  · intro hns hbad
    exact generate_cir_init_err (by omega) hbad
  · intro hns hinit hbad
    exact generate_cir_param_err hns hinit hbad
  · intro hns hinit hk hθ hσ hdt
    refine ⟨_, generate_cir_ok (by omega) hinit (fun _ => ⟨hk, hθ, hσ, hdt⟩), ?_, ?_⟩
    · simp
    · intro row hrow
      simp only [List.mem_map, List.mem_range] at hrow
      obtain ⟨j, _, rfl⟩ := hrow
      simp

/-- C9 witness: a concrete parameter-shape failure with `n_steps = 2`. -/
theorem C9_failure_modes_witness :
    generate_cir 2 2 (.tup [[1]]) [1, 2, 3] [1] [1] [1]
      (fun _ _ => 0) (fun _ _ => 0) = .error .ShapeMismatch :=
  (C9_failure_modes 2 2 [1] [] [1, 2, 3] [1] [1] [1]
    (fun _ _ => 0) (fun _ _ => 0)).2.1 (by norm_num) (Or.inl rfl) (by decide)

/-- C10: a bare scalar/tensor `init_state` behaves exactly like the 1-tuple
containing it, and only element 0 of the tuple influences the output. -/
theorem C10_init_state_normalization :
    ∀ (np ns : ℕ) (t : List ℝ) (rest : List (List ℝ))
      (kappa theta sigma dt : List ℝ) (rn rd : ℕ → ℕ → ℝ),
      generate_cir np ns (.bare t) kappa theta sigma dt rn rd =
        generate_cir np ns (.tup [t]) kappa theta sigma dt rn rd ∧
      generate_cir np ns (.tup (t :: rest)) kappa theta sigma dt rn rd =
        generate_cir np ns (.tup [t]) kappa theta sigma dt rn rd := by
  intro np ns t rest kappa theta sigma dt rn rd
  exact ⟨rfl, rfl⟩
